import Mathlib

/-!
Verification of the ephemeral-token and Gemini-Live session-proxy subsystem
of the react-starter-kit repository.

The definitions below are a shallow embedding of the TypeScript source:

* `src/convex/tokens.ts` — the token mutations/queries
  (`generateEphemeralToken`, `validateEphemeralToken`, `updateTokenUsage`,
  `refreshEphemeralToken`, `deactivateEphemeralToken`, `cleanupExpiredTokens`)
  and the Gemini Live HTTP proxy (`create_session`, `send_message`,
  `close_session` actions, and `cleanupInactiveSessions`).
* `src/app/lib/token-service.ts` — the client-side `TokenStorage` cache.

Database state is passed explicitly; `Date.now()` becomes a `now : Nat`
parameter; randomness (crypto bytes, fresh session ids, connection success)
becomes explicit parameters; a thrown JS error becomes `Except.error`.
-/

namespace ReactStarterKit

/-- Token configuration constant `TOKEN_EXPIRATION_MINUTES` from tokens.ts. -/
def TOKEN_EXPIRATION_MINUTES : Nat := 60

/-- Token configuration constant `MAX_SESSIONS_PER_TOKEN` from tokens.ts. -/
def MAX_SESSIONS_PER_TOKEN : Nat := 5

/-- Token configuration constant `MAX_MESSAGES_PER_TOKEN` from tokens.ts. -/
def MAX_MESSAGES_PER_TOKEN : Nat := 1000

/-- One row of the `ephemeralTokens` Convex table. -/
structure TokenRecord where
  token : String
  userId : String
  expiresAt : Nat
  sessionsUsed : Nat
  messagesUsed : Nat
  maxSessions : Nat
  maxMessages : Nat
  isActive : Bool
  createdAt : Nat
  lastUsed : Nat
  deactivatedAt : Option Nat := none
  deriving Repr, DecidableEq

/-- The `ephemeralTokens` table; `.first()` on the `by_token` index is
modelled as the first list element whose `token` field matches. -/
abbrev TokenStore := List TokenRecord

/-- `ctx.db.query("ephemeralTokens").withIndex("by_token", ...).first()`. -/
def findToken (st : TokenStore) (tok : String) : Option TokenRecord :=
  st.find? (fun r => r.token == tok)

/-- `ctx.db.patch(tokenRecord._id, ...)`: replace the first record whose
`token` field matches (the record `.first()` returned) by `f` of it. -/
def patchToken (st : TokenStore) (tok : String) (f : TokenRecord → TokenRecord) :
    TokenStore :=
  match st with
  | [] => []
  | r :: rest => if r.token == tok then f r :: rest else r :: patchToken rest tok f

/-- JavaScript `x || d` on an optional numeric argument: `undefined`, and the
falsy value `0`, both fall back to the default. -/
def jsOrDefault (x : Option Nat) (d : Nat) : Nat :=
  match x with
  | none => d
  | some v => if v = 0 then d else v

/-- Result shape of the `generateEphemeralToken` mutation. -/
structure GenerateResult where
  token : String
  expiresAt : Nat
  maxSessions : Nat
  maxMessages : Nat
  deriving Repr, DecidableEq

/-- The `generateEphemeralToken` mutation from tokens.ts.  The user-directory
lookup is abstracted to `userExists`; the freshly generated secret (see
`generateSecureToken`) is a parameter.  A JS `throw` is `Except.error`. -/
def generateEphemeralToken (st : TokenStore) (userExists : Bool) (userId : String)
    (maxSessions maxMessages expirationMinutes : Option Nat)
    (secret : String) (now : Nat) :
    Except String (TokenStore × GenerateResult) :=
  if !userExists then .error "User not found"
  else
    let expirationTime := jsOrDefault expirationMinutes TOKEN_EXPIRATION_MINUTES
    let expiresAt := now + expirationTime * 60 * 1000
    let newRecord : TokenRecord :=
      { token := secret
        userId := userId
        expiresAt := expiresAt
        sessionsUsed := 0
        messagesUsed := 0
        maxSessions := jsOrDefault maxSessions MAX_SESSIONS_PER_TOKEN
        maxMessages := jsOrDefault maxMessages MAX_MESSAGES_PER_TOKEN
        isActive := true
        createdAt := now
        lastUsed := now }
    .ok (st ++ [newRecord],
      { token := secret
        expiresAt := expiresAt
        maxSessions := jsOrDefault maxSessions MAX_SESSIONS_PER_TOKEN
        maxMessages := jsOrDefault maxMessages MAX_MESSAGES_PER_TOKEN })

/-- Result shape of the `validateEphemeralToken` query. -/
structure ValidationResult where
  isValid : Bool
  error : Option String := none
  userId : Option String := none
  sessionsUsed : Option Nat := none
  messagesUsed : Option Nat := none
  maxSessions : Option Nat := none
  maxMessages : Option Nat := none
  expiresAt : Option Nat := none
  deriving Repr, DecidableEq

/-- The `validateEphemeralToken` query from tokens.ts: a pure read running
its five checks in source order, first failure wins. -/
def validateEphemeralToken (st : TokenStore) (tok : String) (now : Nat) :
    ValidationResult :=
  match findToken st tok with
  | none => { isValid := false, error := some "Token not found" }
  | some r =>
    if !r.isActive then { isValid := false, error := some "Token is deactivated" }
    else if r.expiresAt < now then { isValid := false, error := some "Token expired" }
    else if r.maxSessions ≤ r.sessionsUsed then
      { isValid := false, error := some "Session limit exceeded" }
    else if r.maxMessages ≤ r.messagesUsed then
      { isValid := false, error := some "Message limit exceeded" }
    else
      { isValid := true
        userId := some r.userId
        sessionsUsed := some r.sessionsUsed
        messagesUsed := some r.messagesUsed
        maxSessions := some r.maxSessions
        maxMessages := some r.maxMessages
        expiresAt := some r.expiresAt }

/-- The record mutation performed by `ctx.db.patch` inside
`updateTokenUsage`: overwrite the counters and refresh `lastUsed`. -/
def usagePatch (newSessionsUsed newMessagesUsed now : Nat) (t : TokenRecord) :
    TokenRecord :=
  { t with sessionsUsed := newSessionsUsed
           messagesUsed := newMessagesUsed
           lastUsed := now }

/-- The record mutation performed by `ctx.db.patch` inside
`refreshEphemeralToken`: overwrite `expiresAt` and refresh `lastUsed`. -/
def refreshPatch (newExpiresAt now : Nat) (t : TokenRecord) : TokenRecord :=
  { t with expiresAt := newExpiresAt, lastUsed := now }

/-- The record mutation performed by `ctx.db.patch` inside
`deactivateEphemeralToken`: clear `isActive` and stamp `deactivatedAt`. -/
def deactivatePatch (now : Nat) (t : TokenRecord) : TokenRecord :=
  { t with isActive := false, deactivatedAt := some now }

/-- Result shape of the `updateTokenUsage` mutation. -/
structure UsageResult where
  sessionsUsed : Nat
  messagesUsed : Nat
  maxSessions : Nat
  maxMessages : Nat
  deriving Repr, DecidableEq

/-- The `updateTokenUsage` mutation from tokens.ts: destructuring defaults
`incrementSessions = 0` / `incrementMessages = 0`, unconditional addition,
`lastUsed` refreshed; throws "Token not found" when the record is absent. -/
def updateTokenUsage (st : TokenStore) (tok : String)
    (incrementSessions incrementMessages : Option Nat) (now : Nat) :
    Except String (TokenStore × UsageResult) :=
  let incS := incrementSessions.getD 0
  let incM := incrementMessages.getD 0
  match findToken st tok with
  | none => .error "Token not found"
  | some r =>
    let newSessionsUsed := r.sessionsUsed + incS
    let newMessagesUsed := r.messagesUsed + incM
    .ok (patchToken st tok (usagePatch newSessionsUsed newMessagesUsed now),
         { sessionsUsed := newSessionsUsed
           messagesUsed := newMessagesUsed
           maxSessions := r.maxSessions
           maxMessages := r.maxMessages })

/-- Result shape of the `refreshEphemeralToken` mutation. -/
structure RefreshResult where
  token : String
  expiresAt : Nat
  sessionsUsed : Nat
  messagesUsed : Nat
  deriving Repr, DecidableEq

/-- The `refreshEphemeralToken` mutation from tokens.ts: destructuring
default `additionalMinutes = TOKEN_EXPIRATION_MINUTES`; throws on a missing
or inactive token; new `expiresAt` is `Math.max(now + delta, old + delta)`. -/
def refreshEphemeralToken (st : TokenStore) (tok : String)
    (additionalMinutes : Option Nat) (now : Nat) :
    Except String (TokenStore × RefreshResult) :=
  let addMin := additionalMinutes.getD TOKEN_EXPIRATION_MINUTES
  match findToken st tok with
  | none => .error "Token not found"
  | some r =>
    if !r.isActive then .error "Cannot refresh inactive token"
    else
      let newExpiresAt :=
        max (now + addMin * 60 * 1000) (r.expiresAt + addMin * 60 * 1000)
      .ok (patchToken st tok (refreshPatch newExpiresAt now),
           { token := tok
             expiresAt := newExpiresAt
             sessionsUsed := r.sessionsUsed
             messagesUsed := r.messagesUsed })

/-- The `deactivateEphemeralToken` mutation from tokens.ts: throws when the
record is absent, otherwise patches `isActive := false` and stamps
`deactivatedAt` with the current time, returning `{success: true, token}`. -/
def deactivateEphemeralToken (st : TokenStore) (tok : String) (now : Nat) :
    Except String (TokenStore × Bool × String) :=
  match findToken st tok with
  | none => .error "Token not found"
  | some _ =>
    .ok (patchToken st tok (deactivatePatch now), true, tok)

/-- The `cleanupExpiredTokens` mutation from tokens.ts: deletes every record
with `expiresAt < now` or `isActive = false`, returning the deleted count. -/
def cleanupExpiredTokens (st : TokenStore) (now : Nat) : TokenStore × Nat :=
  let expired := st.filter (fun r => decide (r.expiresAt < now) || !r.isActive)
  (st.filter (fun r => !(decide (r.expiresAt < now) || !r.isActive)), expired.length)

/-! ### Gemini Live session proxy (the `geminiLiveProxy` httpAction) -/

/-- One entry of the in-memory `activeSessions` map. The opaque
`geminiConnection` handle is abstracted to `hasConn` (the handle is truthy). -/
structure GeminiSession where
  sessionId : String
  userId : String
  hasConn : Bool
  isActive : Bool
  createdAt : Nat
  lastActivity : Nat
  deriving Repr, DecidableEq

/-- The `activeSessions` map, in insertion order (`Map` iteration order). -/
abbrev SessionRegistry := List GeminiSession

/-- `activeSessions.get(sessionId)`. -/
def findSession (reg : SessionRegistry) (sid : String) : Option GeminiSession :=
  reg.find? (fun s => s.sessionId == sid)

/-- `activeSessions.delete(sessionId)`: keys are unique, so a `Map` delete is
removal of every entry with that key. -/
def deleteSession (reg : SessionRegistry) (sid : String) : SessionRegistry :=
  reg.filter (fun s => s.sessionId != sid)

/-- In-place mutation of the session object stored under `sid`. -/
def updateSession (reg : SessionRegistry) (sid : String)
    (f : GeminiSession → GeminiSession) : SessionRegistry :=
  reg.map (fun s => if s.sessionId == sid then f s else s)

/-- The model string returned by `create_session`. -/
def geminiModelName : String := "gemini-2.5-flash-preview-native-audio-dialog"

/-- The combined backend state the proxy endpoints act on: the token table
plus the in-memory session map. -/
structure SystemState where
  tokens : TokenStore
  sessions : SessionRegistry
  deriving Repr, DecidableEq

/-- Outcome of the `create_session` action of `geminiLiveProxy`. -/
inductive CreateSessionResult where
  /-- 400, "userId is required". -/
  | badRequest
  /-- 403, "Token validation failed: ..." with the validator's error. -/
  | tokenRejected (error : String)
  /-- 500, "Failed to create session" (the Gemini connection failed). -/
  | connFailed
  /-- 500, "Internal server error" (a mutation threw). -/
  | internalError
  /-- 200, `{sessionId, status, model}`. -/
  | created (sessionId : String) (status : String) (model : String)
  deriving Repr, DecidableEq

/-- Tail of `create_session` after token validation/metering: open the
Gemini connection (success abstracted to `connOk`), register the session. -/
def finishCreateSession (st : SystemState) (userId newSid : String)
    (connOk : Bool) (now : Nat) : SystemState × CreateSessionResult :=
  if connOk then
    ({ st with sessions := st.sessions ++
        [{ sessionId := newSid, userId := userId, hasConn := true,
           isActive := true, createdAt := now, lastActivity := now }] },
     .created newSid "connected" geminiModelName)
  else (st, .connFailed)

/-- The `create_session` branch of `geminiLiveProxy`: JS falsy check on
`userId`, then (when a token is presented) validate, meter one session via
`updateTokenUsage`, and only then open the connection and register. -/
def createSessionAction (st : SystemState) (userId : String)
    (ephemeralToken : Option String) (newSid : String) (connOk : Bool)
    (now : Nat) : SystemState × CreateSessionResult :=
  if userId = "" then (st, .badRequest)
  else
    match ephemeralToken with
    | some tok =>
      let v := validateEphemeralToken st.tokens tok now
      if !v.isValid then (st, .tokenRejected (v.error.getD ""))
      else
        match updateTokenUsage st.tokens tok (some 1) none now with
        | .error _ => (st, .internalError)
        | .ok (ts, _) => finishCreateSession { st with tokens := ts } userId newSid connOk now
    | none => finishCreateSession st userId newSid connOk now

/-- Outcome of the `send_message` action of `geminiLiveProxy`. -/
inductive SendMessageResult where
  /-- 400, "sessionId is required". -/
  | badRequest
  /-- 404, "Session not found or inactive". -/
  | sessionNotFound
  /-- 403, "Token validation failed: ..." with the validator's error. -/
  | tokenRejected (error : String)
  /-- 500, "Internal server error" (a mutation threw). -/
  | internalError
  /-- 500, "Failed to send message". -/
  | sendFailed
  /-- 200, `{status: "message_sent"}`. -/
  | sent
  deriving Repr, DecidableEq

/-- Forwarding tail of `send_message`: attempt the provider send (success
abstracted to `sendOk`); on success stamp `lastActivity`. -/
def finishSendMessage (st : SystemState) (sid : String) (sendOk : Bool)
    (now : Nat) : SystemState × SendMessageResult :=
  if sendOk then
    let newSessions := updateSession st.sessions sid (fun t => { t with lastActivity := now })
    ({ st with sessions := newSessions }, .sent)
  else (st, .sendFailed)

/-- The `send_message` branch of `geminiLiveProxy`: requires a sessionId and
a present, active session; when a token is presented, validates it and
meters one message before forwarding. -/
def sendMessageAction (st : SystemState) (sessionId : Option String)
    (ephemeralToken : Option String) (sendOk : Bool) (now : Nat) :
    SystemState × SendMessageResult :=
  match sessionId with
  | none => (st, .badRequest)
  | some sid =>
    match findSession st.sessions sid with
    | none => (st, .sessionNotFound)
    | some s =>
      if !s.isActive then (st, .sessionNotFound)
      else
        match ephemeralToken with
        | some tok =>
          let v := validateEphemeralToken st.tokens tok now
          if !v.isValid then (st, .tokenRejected (v.error.getD ""))
          else
            match updateTokenUsage st.tokens tok none (some 1) now with
            | .error _ => (st, .internalError)
            | .ok (ts, _) => finishSendMessage { st with tokens := ts } sid sendOk now
        | none => finishSendMessage st sid sendOk now

/-- Outcome of the `close_session` action. -/
structure CloseOutcome where
  status : String
  registry : SessionRegistry
  deriving Repr, DecidableEq

/-- The `close_session` branch of `geminiLiveProxy`: if the session exists,
`try { connection.close(); isActive = false } catch { log }` — when the close
throws (`closeOk = false`) the `isActive` write is skipped — then the entry
is deleted; the response status is `"session_closed"` in every case. -/
def closeSessionAction (reg : SessionRegistry) (sid : String) (closeOk : Bool) :
    CloseOutcome :=
  match findSession reg sid with
  | none => { status := "session_closed", registry := reg }
  | some _ =>
    let reg1 :=
      if closeOk then updateSession reg sid (fun t => { t with isActive := false })
      else reg
    { status := "session_closed", registry := deleteSession reg1 sid }

/-- `TIMEOUT_MS` of `cleanupInactiveSessions`: 15 minutes. -/
def TIMEOUT_MS : Nat := 15 * 60 * 1000

/-- One iteration of the `cleanupInactiveSessions` loop, acting on the
accumulated registry and the list of close attempts made so far.  For a
timed-out entry the code runs
`try { if (conn && isActive) conn.close() } catch { log }` and then deletes
the entry: the `match` renders the try/catch — a failing close
(`closeOk sid = false`) is caught and execution still reaches the delete. -/
def sweepEntry (closeOk : String → Bool) (now : Nat)
    (acc : SessionRegistry × List String) (s : GeminiSession) :
    SessionRegistry × List String :=
  if TIMEOUT_MS < now - s.lastActivity then
    let attempted := s.hasConn && s.isActive
    let attempts := if attempted then acc.2 ++ [s.sessionId] else acc.2
    match (if attempted then
             (if closeOk s.sessionId then Except.ok () else Except.error "close failed")
           else Except.ok () : Except String Unit) with
    | Except.ok _ => (deleteSession acc.1 s.sessionId, attempts)
    | Except.error _ => (deleteSession acc.1 s.sessionId, attempts)
  else acc

/-- `cleanupInactiveSessions` from tokens.ts: iterate over the entries of
`activeSessions` (insertion order), closing and deleting every session idle
for more than `TIMEOUT_MS`.  Returns the surviving registry together with
the sequence of close attempts that were made. -/
def cleanupInactiveSessions (closeOk : String → Bool) (now : Nat)
    (reg : SessionRegistry) : SessionRegistry × List String :=
  reg.foldl (sweepEntry closeOk now) (reg, [])

/-! ### Client-side token cache (`TokenStorage` in token-service.ts) -/

/-- The `TokenInfo` interface of token-service.ts. -/
structure TokenInfo where
  token : String
  expiresAt : Nat
  maxSessions : Nat
  maxMessages : Nat
  tokenId : String
  deriving Repr, DecidableEq

/-- A raw persisted localStorage string, abstracted by the outcome of
`JSON.parse` on it: `parsed = none` models a corrupted string whose parse
throws, `parsed = some info` one that parses to `info`. -/
structure RawTokenInfo where
  parsed : Option TokenInfo
  deriving Repr, DecidableEq

/-- The two localStorage slots `TOKEN_KEY` and `TOKEN_INFO_KEY`. -/
structure ClientCache where
  tokenKey : Option String
  tokenInfoKey : Option RawTokenInfo
  deriving Repr, DecidableEq

/-- `TokenStorage.clearToken`: remove both localStorage items. -/
def clearToken (_c : ClientCache) : ClientCache :=
  { tokenKey := none, tokenInfoKey := none }

/-- `TokenStorage.getTokenInfo`: absent slot gives `null`; a corrupted slot
(`JSON.parse` throws) is caught, the cache is cleared and `null` returned;
an expired record is likewise cleared and `null` returned. -/
def getTokenInfo (c : ClientCache) (now : Nat) : ClientCache × Option TokenInfo :=
  match c.tokenInfoKey with
  | none => (c, none)
  | some raw =>
    match raw.parsed with
    | none => (clearToken c, none)
    | some info =>
      if info.expiresAt < now then (clearToken c, none)
      else (c, some info)

/-- `TokenStorage.isTokenValid`: `getTokenInfo() !== null && now < expiresAt`. -/
def isTokenValid (c : ClientCache) (now : Nat) : ClientCache × Bool :=
  match getTokenInfo c now with
  | (c2, none) => (c2, false)
  | (c2, some info) => (c2, decide (now < info.expiresAt))

/-! ### Operation sequences over the whole subsystem -/

/-- One observable operation of the subsystem: the six token operations of
tokens.ts plus the proxy endpoints.  Environment inputs (current time, fresh
secrets/ids, connection outcomes) travel with the operation. -/
inductive SysOp where
  | generate (userExists : Bool) (userId : String)
      (maxSessions maxMessages expirationMinutes : Option Nat)
      (secret : String) (now : Nat)
  | validate (tok : String) (now : Nat)
  | updateUsage (tok : String) (incS incM : Option Nat) (now : Nat)
  | refresh (tok : String) (addMin : Option Nat) (now : Nat)
  | deactivate (tok : String) (now : Nat)
  | cleanupTokens (now : Nat)
  | createSession (userId : String) (ephToken : Option String)
      (newSid : String) (connOk : Bool) (now : Nat)
  | sendMessage (sid : Option String) (ephToken : Option String)
      (sendOk : Bool) (now : Nat)
  | closeSession (sid : String) (closeOk : Bool) (now : Nat)
  | cleanupSessions (closeOk : String → Bool) (now : Nat)

/-- Whether an operation is a direct `updateTokenUsage` call (as opposed to
the metering performed inside the session proxy). -/
def SysOp.isRawUpdateUsage : SysOp → Bool
  | .updateUsage _ _ _ _ => true
  | _ => false

/-- Sequential semantics of one operation.  A Convex query never writes;
a mutation that throws (`Except.error`) is rolled back, leaving the state
unchanged. -/
def sysStep (st : SystemState) : SysOp → SystemState
  | .generate userExists userId maxS maxM expMin secret now =>
    match generateEphemeralToken st.tokens userExists userId maxS maxM expMin secret now with
    | .ok (ts, _) => { st with tokens := ts }
    | .error _ => st
  | .validate _ _ => st
  | .updateUsage tok incS incM now =>
    match updateTokenUsage st.tokens tok incS incM now with
    | .ok (ts, _) => { st with tokens := ts }
    | .error _ => st
  | .refresh tok addMin now =>
    match refreshEphemeralToken st.tokens tok addMin now with
    | .ok (ts, _) => { st with tokens := ts }
    | .error _ => st
  | .deactivate tok now =>
    match deactivateEphemeralToken st.tokens tok now with
    | .ok (ts, _) => { st with tokens := ts }
    | .error _ => st
  | .cleanupTokens now => { st with tokens := (cleanupExpiredTokens st.tokens now).1 }
  | .createSession userId ephToken newSid connOk now =>
    (createSessionAction st userId ephToken newSid connOk now).1
  | .sendMessage sid ephToken sendOk now =>
    (sendMessageAction st sid ephToken sendOk now).1
  | .closeSession sid closeOk _now =>
    { st with sessions := (closeSessionAction st.sessions sid closeOk).registry }
  | .cleanupSessions closeOk now =>
    { st with sessions := (cleanupInactiveSessions closeOk now st.sessions).1 }

/-- Run a sequence of operations from a starting state. -/
def sysRun (st : SystemState) (ops : List SysOp) : SystemState :=
  ops.foldl sysStep st

/-- The §3 invariant on the token table: counters within their bounds. -/
def tokenInvariant (st : TokenStore) : Prop :=
  ∀ r ∈ st, r.sessionsUsed ≤ r.maxSessions ∧ r.messagesUsed ≤ r.maxMessages

instance (st : TokenStore) : Decidable (tokenInvariant st) :=
  List.decidableBAll _ st

/-! ### Store lemmas -/

theorem findToken_mem {st : TokenStore} {tok : String} {r : TokenRecord}
    (h : findToken st tok = some r) : r ∈ st :=
  List.mem_of_find?_eq_some h

theorem findToken_token {st : TokenStore} {tok : String} {r : TokenRecord}
    (h : findToken st tok = some r) : r.token = tok := by
  have hp := List.find?_some h
  simpa using hp

theorem findToken_cons (r : TokenRecord) (rest : TokenStore) (tok : String) :
    findToken (r :: rest) tok =
      if r.token == tok then some r else findToken rest tok := by
  by_cases h : (r.token == tok) = true
  · rw [if_pos h]
    exact List.find?_cons_of_pos rest h
  · rw [if_neg h]
    exact List.find?_cons_of_neg rest h

theorem findToken_patchToken (st : TokenStore) (tok : String)
    (f : TokenRecord → TokenRecord) (hf : ∀ t, (f t).token = t.token) :
    findToken (patchToken st tok f) tok = (findToken st tok).map f := by
  induction st with
  | nil => rfl
  | cons r rest ih =>
    by_cases h : (r.token == tok) = true
    · rw [patchToken, if_pos h, findToken_cons, findToken_cons, hf r, if_pos h, if_pos h]
      rfl
    · rw [patchToken, if_neg h, findToken_cons, findToken_cons, if_neg h, if_neg h]
      exact ih

theorem findToken_patchToken_ne (st : TokenStore) (tok tok2 : String)
    (f : TokenRecord → TokenRecord) (hf : ∀ t, (f t).token = t.token)
    (hne : tok2 ≠ tok) :
    findToken (patchToken st tok f) tok2 = findToken st tok2 := by
  induction st with
  | nil => rfl
  | cons r rest ih =>
    by_cases h : (r.token == tok) = true
    · have hr : r.token = tok := by simpa using h
      have h2 : ¬ (r.token == tok2) = true := by
        simp only [beq_iff_eq, hr]
        exact fun he => hne he.symm
      rw [patchToken, if_pos h, findToken_cons, findToken_cons, hf r,
          if_neg h2, if_neg h2]
    · rw [patchToken, if_neg h, findToken_cons, findToken_cons]
      by_cases h2 : (r.token == tok2) = true
      · rw [if_pos h2, if_pos h2]
      · rw [if_neg h2, if_neg h2]
        exact ih

theorem usagePatch_token (a b c : Nat) (t : TokenRecord) :
    (usagePatch a b c t).token = t.token := rfl

theorem refreshPatch_token (a b : Nat) (t : TokenRecord) :
    (refreshPatch a b t).token = t.token := rfl

theorem deactivatePatch_token (a : Nat) (t : TokenRecord) :
    (deactivatePatch a t).token = t.token := rfl

theorem findToken_patchToken_some {st : TokenStore} {tok : String}
    {r : TokenRecord} (f : TokenRecord → TokenRecord)
    (hf : ∀ t, (f t).token = t.token) (h : findToken st tok = some r) :
    findToken (patchToken st tok f) tok = some (f r) := by
  rw [findToken_patchToken st tok f hf, h]
  rfl

theorem mem_patchToken {st : TokenStore} {tok : String}
    {f : TokenRecord → TokenRecord} {x : TokenRecord}
    (hx : x ∈ patchToken st tok f) :
    x ∈ st ∨ ∃ r, findToken st tok = some r ∧ x = f r := by
  induction st with
  | nil => simp [patchToken] at hx
  | cons r rest ih =>
    by_cases h : (r.token == tok) = true
    · rw [patchToken, if_pos h] at hx
      rcases List.mem_cons.mp hx with hx | hx
      · right
        refine ⟨r, ?_, hx⟩
        rw [findToken_cons, if_pos h]
      · exact Or.inl (List.mem_cons_of_mem _ hx)
    · rw [patchToken, if_neg h] at hx
      rcases List.mem_cons.mp hx with hx | hx
      · exact Or.inl (hx ▸ List.mem_cons_self _ _)
      · rcases ih hx with hmem | ⟨rr, hfind, hxe⟩
        · exact Or.inl (List.mem_cons_of_mem _ hmem)
        · right
          refine ⟨rr, ?_, hxe⟩
          rw [findToken_cons, if_neg h]
          exact hfind

theorem patchToken_patchToken (st : TokenStore) (tok : String)
    (f g : TokenRecord → TokenRecord) (hf : ∀ t, (f t).token = t.token) :
    patchToken (patchToken st tok f) tok g = patchToken st tok (fun t => g (f t)) := by
  induction st with
  | nil => rfl
  | cons r rest ih =>
    by_cases h : (r.token == tok) = true
    · rw [patchToken, if_pos h, patchToken, if_pos (by simpa [hf r] using h),
          patchToken, if_pos h]
    · rw [patchToken, if_neg h, patchToken, if_neg h, patchToken, if_neg h, ih]

theorem patchToken_congr (st : TokenStore) (tok : String)
    (f g : TokenRecord → TokenRecord) (h : ∀ t, f t = g t) :
    patchToken st tok f = patchToken st tok g := by
  induction st with
  | nil => rfl
  | cons r rest ih =>
    by_cases hr : (r.token == tok) = true
    · rw [patchToken, if_pos hr, patchToken, if_pos hr, h r]
    · rw [patchToken, if_neg hr, patchToken, if_neg hr, ih]

/-- Characterization of a successful validation: the record exists and all
five checks pass. -/
theorem validate_isValid_iff (st : TokenStore) (tok : String) (now : Nat) :
    (validateEphemeralToken st tok now).isValid = true ↔
      ∃ r, findToken st tok = some r ∧ r.isActive = true ∧ now ≤ r.expiresAt ∧
        r.sessionsUsed < r.maxSessions ∧ r.messagesUsed < r.maxMessages := by
  unfold validateEphemeralToken
  cases hfind : findToken st tok with
  | none => simp
  | some r =>
    dsimp only
    constructor
    · intro hv
      refine ⟨r, rfl, ?_⟩
      split_ifs at hv with h1 h2 h3 h4
      simp_all [Nat.not_lt, Nat.not_le]
    · rintro ⟨r2, hfind2, hact, hexp, hsess, hmsg⟩
      cases hfind2
      rw [hact]
      rw [if_neg (by simp), if_neg (Nat.not_lt.mpr hexp),
          if_neg (Nat.not_le.mpr hsess), if_neg (Nat.not_le.mpr hmsg)]

/-- A concrete active token record used by witnesses. -/
def demoRecord : TokenRecord :=
  { token := "t", userId := "u", expiresAt := 100, sessionsUsed := 0,
    messagesUsed := 0, maxSessions := 5, maxMessages := 1000, isActive := true,
    createdAt := 0, lastUsed := 0 }

/-- A concrete deactivated token record used by witnesses. -/
def demoInactiveRecord : TokenRecord :=
  { demoRecord with isActive := false }

/-- C2: for every secret, `validateEphemeralToken` runs its checks in the
fixed source order — (1) record exists, else "Token not found"; (2)
`isActive`, else "Token is deactivated"; (3) not past `expiresAt`, else
"Token expired"; (4) `sessionsUsed < maxSessions`, else "Session limit
exceeded"; (5) `messagesUsed < maxMessages`, else "Message limit exceeded" —
the first failing check determines the returned reason, and validate (a
Convex query) never mutates any stored state. -/
theorem validate_fixed_order_first_failure_pure (st : TokenStore) (tok : String) (now : Nat) :
    (findToken st tok = none →
      validateEphemeralToken st tok now =
        { isValid := false, error := some "Token not found" }) ∧
    (∀ r, findToken st tok = some r →
      (r.isActive = false →
        validateEphemeralToken st tok now =
          { isValid := false, error := some "Token is deactivated" }) ∧
      (r.isActive = true → r.expiresAt < now →
        validateEphemeralToken st tok now =
          { isValid := false, error := some "Token expired" }) ∧
      (r.isActive = true → now ≤ r.expiresAt → r.maxSessions ≤ r.sessionsUsed →
        validateEphemeralToken st tok now =
          { isValid := false, error := some "Session limit exceeded" }) ∧
      (r.isActive = true → now ≤ r.expiresAt → r.sessionsUsed < r.maxSessions →
          r.maxMessages ≤ r.messagesUsed →
        validateEphemeralToken st tok now =
          { isValid := false, error := some "Message limit exceeded" }) ∧
      (r.isActive = true → now ≤ r.expiresAt → r.sessionsUsed < r.maxSessions →
          r.messagesUsed < r.maxMessages →
        validateEphemeralToken st tok now =
          { isValid := true, userId := some r.userId,
            sessionsUsed := some r.sessionsUsed,
            messagesUsed := some r.messagesUsed,
            maxSessions := some r.maxSessions,
            maxMessages := some r.maxMessages,
            expiresAt := some r.expiresAt })) ∧
    (∀ s : SystemState, sysStep s (SysOp.validate tok now) = s) := by
  refine ⟨?_, fun r hr => ⟨?_, ?_, ?_, ?_, ?_⟩, fun s => rfl⟩
  · intro h
    unfold validateEphemeralToken
    rw [h]
  · intro h1
    unfold validateEphemeralToken
    rw [hr]
    simp [h1]
  · intro h1 h2
    unfold validateEphemeralToken
    rw [hr]
    simp [h1, h2]
  · intro h1 h2 h3
    unfold validateEphemeralToken
    rw [hr]
    simp [h1, h3, Nat.not_lt.mpr h2]
  · intro h1 h2 h3 h4
    unfold validateEphemeralToken
    rw [hr]
    simp [h1, h4, Nat.not_lt.mpr h2, Nat.not_le.mpr h3]
  · intro h1 h2 h3 h4
    unfold validateEphemeralToken
    rw [hr]
    simp [h1, Nat.not_lt.mpr h2, Nat.not_le.mpr h3, Nat.not_le.mpr h4]

/-- Witness for C2 at concrete inputs: the missing-record and the
deactivated-record branches. -/
theorem validate_fixed_order_first_failure_pure_witness :
    validateEphemeralToken [] "t" 0 =
      { isValid := false, error := some "Token not found" } ∧
    validateEphemeralToken [demoInactiveRecord] "t" 0 =
      { isValid := false, error := some "Token is deactivated" } := by
  constructor
  · exact (validate_fixed_order_first_failure_pure [] "t" 0).1 rfl
  · exact ((validate_fixed_order_first_failure_pure [demoInactiveRecord] "t" 0).2.1
      demoInactiveRecord (by decide)).1 (by decide)

/-- C3: for every existing active token and every refresh call (any
`additionalMinutes`, including the default 60), the refresh succeeds, the
new `expiresAt` equals `max (now + delta) (old expiresAt + delta)` with
`delta = additionalMinutes * 60 * 1000`, and the stored `expiresAt` never
decreases. -/
theorem refresh_never_decreases_expiry (st : TokenStore) (tok : String)
    (addMin : Option Nat) (now : Nat) (r : TokenRecord)
    (hfind : findToken st tok = some r) (hact : r.isActive = true) :
    ∃ st2 res,
      refreshEphemeralToken st tok addMin now = .ok (st2, res) ∧
      res.expiresAt =
        max (now + addMin.getD TOKEN_EXPIRATION_MINUTES * 60 * 1000)
            (r.expiresAt + addMin.getD TOKEN_EXPIRATION_MINUTES * 60 * 1000) ∧
      r.expiresAt ≤ res.expiresAt ∧
      findToken st2 tok =
        some { r with expiresAt := res.expiresAt, lastUsed := now } := by
  refine ⟨patchToken st tok (refreshPatch
      (max (now + addMin.getD TOKEN_EXPIRATION_MINUTES * 60 * 1000)
           (r.expiresAt + addMin.getD TOKEN_EXPIRATION_MINUTES * 60 * 1000)) now),
    { token := tok
      expiresAt :=
        max (now + addMin.getD TOKEN_EXPIRATION_MINUTES * 60 * 1000)
            (r.expiresAt + addMin.getD TOKEN_EXPIRATION_MINUTES * 60 * 1000)
      sessionsUsed := r.sessionsUsed
      messagesUsed := r.messagesUsed }, ?_, rfl, ?_, ?_⟩
  · unfold refreshEphemeralToken
    rw [hfind]
    simp [hact]
  · exact le_trans (Nat.le_add_right _ _) (le_max_right _ _)
  · exact findToken_patchToken_some (refreshPatch _ now)
      (refreshPatch_token _ now) hfind

/-- Witness for C3: refreshing the demo record with the default
`additionalMinutes` at time 0. -/
theorem refresh_never_decreases_expiry_witness :
    ∃ st2 res,
      refreshEphemeralToken [demoRecord] "t" none 0 = .ok (st2, res) ∧
      res.expiresAt =
        max (0 + (none : Option Nat).getD TOKEN_EXPIRATION_MINUTES * 60 * 1000)
            (demoRecord.expiresAt +
              (none : Option Nat).getD TOKEN_EXPIRATION_MINUTES * 60 * 1000) ∧
      demoRecord.expiresAt ≤ res.expiresAt ∧
      findToken st2 "t" =
        some { demoRecord with expiresAt := res.expiresAt, lastUsed := 0 } :=
  refresh_never_decreases_expiry [demoRecord] "t" none 0 demoRecord
    (by decide) (by decide)

/-- The store after deactivating the demo record at time 1. -/
def demoDeactivatedAt1 : TokenStore :=
  [{ demoRecord with isActive := false, deactivatedAt := some 1 }]

/-- The store after deactivating the demo record at time 2. -/
def demoDeactivatedAt2 : TokenStore :=
  [{ demoRecord with isActive := false, deactivatedAt := some 2 }]

/-- C5 counterexample: deactivating twice (at times 1 and 2) does NOT yield
the same final stored token state as deactivating once (at time 1): the
second call overwrites `deactivatedAt` with its own timestamp, so the claim
as stated is false whenever the two calls carry different times. -/
theorem deactivate_twice_differs_counterexample :
    deactivateEphemeralToken [demoRecord] "t" 1 = .ok (demoDeactivatedAt1, true, "t") ∧
    deactivateEphemeralToken demoDeactivatedAt1 "t" 2 = .ok (demoDeactivatedAt2, true, "t") ∧
    decide (demoDeactivatedAt1 = demoDeactivatedAt2) = false := by
  refine ⟨rfl, rfl, ?_⟩
  decide

/-- C5 amended: deactivate is idempotent up to the `deactivatedAt`
timestamp.  For every existing token, a second deactivate succeeds without
error (a no-op apart from `deactivatedAt`): the state after deactivating
twice (at `t1` then `t2`) equals the state after a single deactivate at
`t2` — `isActive` stays false and only `deactivatedAt` is overwritten — and
when both calls carry the same timestamp the final states are identical. -/
theorem deactivate_idempotent_up_to_timestamp (st : TokenStore) (tok : String)
    (t1 t2 : Nat) (r : TokenRecord) (hfind : findToken st tok = some r) :
    ∃ st1 st2,
      deactivateEphemeralToken st tok t1 = .ok (st1, true, tok) ∧
      deactivateEphemeralToken st1 tok t2 = .ok (st2, true, tok) ∧
      deactivateEphemeralToken st tok t2 = .ok (st2, true, tok) ∧
      (t1 = t2 → st1 = st2) := by
  refine ⟨patchToken st tok (deactivatePatch t1),
          patchToken st tok (deactivatePatch t2), ?_, ?_, ?_, ?_⟩
  · unfold deactivateEphemeralToken
    rw [hfind]
  · have hp := findToken_patchToken_some (deactivatePatch t1)
      (deactivatePatch_token t1) hfind
    unfold deactivateEphemeralToken
    rw [hp]
    dsimp only
    rw [patchToken_patchToken st tok (deactivatePatch t1) (deactivatePatch t2)
          (deactivatePatch_token t1),
        patchToken_congr st tok (fun t => deactivatePatch t2 (deactivatePatch t1 t))
          (deactivatePatch t2) (fun t => rfl)]
  · unfold deactivateEphemeralToken
    rw [hfind]
  · intro h
    subst h
    rfl

/-- Witness for C5 amended: the demo store at times 1 and 2. -/
theorem deactivate_idempotent_up_to_timestamp_witness :
    ∃ st1 st2,
      deactivateEphemeralToken [demoRecord] "t" 1 = .ok (st1, true, "t") ∧
      deactivateEphemeralToken st1 "t" 2 = .ok (st2, true, "t") ∧
      deactivateEphemeralToken [demoRecord] "t" 2 = .ok (st2, true, "t") ∧
      ((1 : Nat) = 2 → st1 = st2) :=
  deactivate_idempotent_up_to_timestamp [demoRecord] "t" 1 2 demoRecord (by decide)

/-- C6: `updateTokenUsage` fails with "Token not found" when the secret has
no stored record (and, at the operation level, leaves all stored state
unchanged); when the record exists it adds the given increments to
`sessionsUsed` and `messagesUsed` unconditionally — no quota hypothesis is
needed — updates `lastUsed`, returns the new counters with the unchanged
`maxSessions`/`maxMessages`, and leaves every other token unchanged. -/
theorem updateUsage_notfound_else_unconditional (st : TokenStore) (tok : String)
    (incS incM : Option Nat) (now : Nat) :
    (findToken st tok = none →
      updateTokenUsage st tok incS incM now = .error "Token not found" ∧
      ∀ s : SystemState, s.tokens = st →
        sysStep s (SysOp.updateUsage tok incS incM now) = s) ∧
    (∀ r, findToken st tok = some r →
      ∃ st2,
        updateTokenUsage st tok incS incM now =
          .ok (st2,
            { sessionsUsed := r.sessionsUsed + incS.getD 0
              messagesUsed := r.messagesUsed + incM.getD 0
              maxSessions := r.maxSessions
              maxMessages := r.maxMessages }) ∧
        findToken st2 tok =
          some { r with
                   sessionsUsed := r.sessionsUsed + incS.getD 0
                   messagesUsed := r.messagesUsed + incM.getD 0
                   lastUsed := now } ∧
        ∀ tok2, tok2 ≠ tok → findToken st2 tok2 = findToken st tok2) := by
  constructor
  · intro h
    have herr : updateTokenUsage st tok incS incM now = .error "Token not found" := by
      unfold updateTokenUsage
      rw [h]
    refine ⟨herr, fun s hs => ?_⟩
    show (match updateTokenUsage s.tokens tok incS incM now with
          | .ok (ts, _) => { s with tokens := ts }
          | .error _ => s) = s
    rw [hs, herr]
  · intro r hr
    refine ⟨patchToken st tok (usagePatch (r.sessionsUsed + incS.getD 0)
        (r.messagesUsed + incM.getD 0) now), ?_, ?_, ?_⟩
    · unfold updateTokenUsage
      rw [hr]
    · exact findToken_patchToken_some
        (usagePatch (r.sessionsUsed + incS.getD 0) (r.messagesUsed + incM.getD 0) now)
        (usagePatch_token _ _ now) hr
    · intro tok2 hne
      exact findToken_patchToken_ne st tok tok2
        (usagePatch (r.sessionsUsed + incS.getD 0) (r.messagesUsed + incM.getD 0) now)
        (usagePatch_token _ _ now) hne

/-- Witness for C6: the missing-record branch on the empty store and the
increment branch on the demo store. -/
theorem updateUsage_notfound_else_unconditional_witness :
    (updateTokenUsage [] "t" (some 1) none 0 = .error "Token not found") ∧
    (∃ st2,
      updateTokenUsage [demoRecord] "t" (some 2) (some 3) 7 =
        .ok (st2,
          { sessionsUsed := demoRecord.sessionsUsed + (some 2 : Option Nat).getD 0
            messagesUsed := demoRecord.messagesUsed + (some 3 : Option Nat).getD 0
            maxSessions := demoRecord.maxSessions
            maxMessages := demoRecord.maxMessages }) ∧
      findToken st2 "t" =
        some { demoRecord with
                 sessionsUsed := demoRecord.sessionsUsed + (some 2 : Option Nat).getD 0
                 messagesUsed := demoRecord.messagesUsed + (some 3 : Option Nat).getD 0
                 lastUsed := 7 } ∧
      ∀ tok2, tok2 ≠ "t" → findToken st2 tok2 = findToken [demoRecord] tok2) := by
  constructor
  · exact ((updateUsage_notfound_else_unconditional [] "t" (some 1) none 0).1 rfl).1
  · exact (updateUsage_notfound_else_unconditional [demoRecord] "t"
      (some 2) (some 3) 7).2 demoRecord (by decide)

/-! ### C7: the secret format of `generateSecureToken` -/

/-- The `chars` alphabet of `generateSecureToken`. -/
def tokenChars : List Char :=
  "ABCDEFGHIJKLMNOPQRSTUVWXYZabcdefghijklmnopqrstuvwxyz0123456789".toList

/-- Decimal printing of a natural number, as JS string interpolation
`${Date.now()}` renders a non-negative integer. -/
def natToDecimal (n : Nat) : List Char :=
  if _h : n < 10 then [Nat.digitChar n]
  else natToDecimal (n / 10) ++ [Nat.digitChar (n % 10)]
decreasing_by
  exact Nat.div_lt_self (by omega) (by omega)

/-- `generateSecureToken`, crypto branch: 32 random bytes, each reduced
modulo the alphabet length and used as an index, wrapped as
`glt_<payload>_<Date.now()>`. -/
def generateSecureToken (randomValues : List Nat) (now : Nat) : String :=
  let payload := randomValues.map (fun b => tokenChars.getD (b % tokenChars.length) 'A')
  "glt_" ++ String.mk payload ++ "_" ++ String.mk (natToDecimal now)

/-- `generateSecureToken`, `Math.random` fallback branch: 32 indices, each
already below the alphabet length (`Math.floor(Math.random() * 62)`). -/
def generateSecureTokenFallback (randomIndices : List Nat) (now : Nat) : String :=
  let payload := randomIndices.map (fun i => tokenChars.getD i 'A')
  "glt_" ++ String.mk payload ++ "_" ++ String.mk (natToDecimal now)

/-- The character class `[A-Za-z0-9]`. -/
def isAlphanumChar (c : Char) : Bool :=
  (('A' ≤ c && c ≤ 'Z') || ('a' ≤ c && c ≤ 'z') || ('0' ≤ c && c ≤ '9'))

/-- Decidable matcher for the regular expression
`^glt_[A-Za-z0-9]{32}_[0-9]+$`. -/
def matchesTokenPattern (s : String) : Bool :=
  match s.data with
  | 'g' :: 'l' :: 't' :: '_' :: rest =>
    let payload := rest.take 32
    let tail := rest.drop 32
    payload.length == 32 && payload.all isAlphanumChar &&
      (match tail with
       | '_' :: ds => !ds.isEmpty && ds.all (fun c => '0' ≤ c && c ≤ '9')
       | _ => false)
  | _ => false

theorem tokenChars_getD_alphanum :
    ∀ i, i < 62 → isAlphanumChar (tokenChars.getD i 'A') = true := by
  decide

theorem tokenChars_length : tokenChars.length = 62 := by decide

theorem digitChar_digit :
    ∀ n, n < 10 → (('0' ≤ Nat.digitChar n && Nat.digitChar n ≤ '9') = true) := by
  decide

theorem natToDecimal_digits (n : Nat) :
    (natToDecimal n).all (fun c => '0' ≤ c && c ≤ '9') = true ∧
      natToDecimal n ≠ [] := by
  induction n using Nat.strong_induction_on with
  | _ n ih =>
    rw [natToDecimal]
    split_ifs with h
    · constructor
      · simp [digitChar_digit n h]
      · simp
    · have hlt : n / 10 < n := Nat.div_lt_self (by omega) (by omega)
      rcases ih (n / 10) hlt with ⟨hall, hne⟩
      constructor
      · rw [List.all_append, hall]
        simp [digitChar_digit (n % 10) (Nat.mod_lt n (by omega))]
      · simp

theorem matchesTokenPattern_payload (payload : List Char) (now : Nat)
    (hlen : payload.length = 32) (hall : payload.all isAlphanumChar = true) :
    matchesTokenPattern
      ("glt_" ++ String.mk payload ++ "_" ++ String.mk (natToDecimal now)) = true := by
  have hdata :
      ("glt_" ++ String.mk payload ++ "_" ++ String.mk (natToDecimal now)).data =
        'g' :: 'l' :: 't' :: '_' :: (payload ++ '_' :: natToDecimal now) := by
    simp [String.data_append]
  rw [matchesTokenPattern, hdata]
  have htake : (payload ++ '_' :: natToDecimal now).take 32 = payload := by
    rw [← hlen]
    exact List.take_left payload _
  have hdrop : (payload ++ '_' :: natToDecimal now).drop 32 = '_' :: natToDecimal now := by
    rw [← hlen]
    exact List.drop_left payload _
  rcases natToDecimal_digits now with ⟨hdigits, hne⟩
  simp only [htake, hdrop, hlen, hall, hdigits]
  simp [hne]

/-- C7: every secret produced by token generation — through the
`crypto.getRandomValues` branch on any 32 random bytes, and through the
`Math.random` fallback branch on any 32 in-range indices — matches the
pattern `^glt_[A-Za-z0-9]{32}_[0-9]+$`. -/
theorem generated_secret_matches_pattern (randomValues randomIndices : List Nat)
    (now : Nat) (hlen : randomValues.length = 32)
    (hlen2 : randomIndices.length = 32) (hidx : ∀ i ∈ randomIndices, i < 62) :
    matchesTokenPattern (generateSecureToken randomValues now) = true ∧
    matchesTokenPattern (generateSecureTokenFallback randomIndices now) = true := by
  constructor
  · apply matchesTokenPattern_payload
    · simp [hlen]
    · rw [List.all_eq_true]
      intro c hc
      rcases List.mem_map.mp hc with ⟨b, _, hbc⟩
      rw [← hbc]
      exact tokenChars_getD_alphanum (b % tokenChars.length)
        (by rw [tokenChars_length]; exact Nat.mod_lt b (by omega))
  · apply matchesTokenPattern_payload
    · simp [hlen2]
    · rw [List.all_eq_true]
      intro c hc
      rcases List.mem_map.mp hc with ⟨i, hi, hic⟩
      rw [← hic]
      exact tokenChars_getD_alphanum i (hidx i hi)

/-- Witness for C7: 32 zero bytes / indices at a concrete timestamp. -/
theorem generated_secret_matches_pattern_witness :
    matchesTokenPattern (generateSecureToken (List.replicate 32 0) 1700000000000) = true ∧
    matchesTokenPattern (generateSecureTokenFallback (List.replicate 32 7) 1700000000000) = true :=
  generated_secret_matches_pattern (List.replicate 32 0) (List.replicate 32 7)
    1700000000000 (by decide) (by decide) (by decide)

/-! ### C1: the counter invariant over operation sequences -/

theorem finishCreateSession_tokens (s : SystemState) (a b : String) (c : Bool)
    (n : Nat) : ((finishCreateSession s a b c n).1).tokens = s.tokens := by
  unfold finishCreateSession
  split_ifs with hc
  · rfl
  · rfl

theorem finishSendMessage_tokens (s : SystemState) (a : String) (c : Bool)
    (n : Nat) : ((finishSendMessage s a c n).1).tokens = s.tokens := by
  unfold finishSendMessage
  split_ifs with hc
  · rfl
  · rfl

/-- A metered increment performed right after a successful validation keeps
the counters within their bounds, provided each increment is at most one. -/
theorem updateUsage_guarded_preserves_invariant (st : TokenStore) (tok : String)
    (now : Nat) (incS incM : Option Nat)
    (hincS : incS.getD 0 ≤ 1) (hincM : incM.getD 0 ≤ 1)
    (hv : (validateEphemeralToken st tok now).isValid = true)
    (hinv : tokenInvariant st) (ts : TokenStore) (res : UsageResult)
    (hu : updateTokenUsage st tok incS incM now = .ok (ts, res)) :
    tokenInvariant ts := by
  rcases (validate_isValid_iff st tok now).mp hv with ⟨r, hfind, _, _, hsess, hmsg⟩
  unfold updateTokenUsage at hu
  rw [hfind] at hu
  dsimp only at hu
  rw [Except.ok.injEq, Prod.mk.injEq] at hu
  obtain ⟨hts, _⟩ := hu
  subst hts
  intro x hx
  rcases mem_patchToken hx with hmem | ⟨r2, hfind2, hxe⟩
  · exact hinv x hmem
  · rw [hfind] at hfind2
    cases hfind2
    subst hxe
    refine ⟨?_, ?_⟩
    · show r.sessionsUsed + incS.getD 0 ≤ r.maxSessions
      omega
    · show r.messagesUsed + incM.getD 0 ≤ r.maxMessages
      omega

theorem refresh_ok_preserves_invariant (st : TokenStore) (tok : String)
    (addMin : Option Nat) (now : Nat) (ts : TokenStore) (res : RefreshResult)
    (hres : refreshEphemeralToken st tok addMin now = .ok (ts, res))
    (h : tokenInvariant st) : tokenInvariant ts := by
  unfold refreshEphemeralToken at hres
  cases hfind : findToken st tok with
  | none => rw [hfind] at hres; simp at hres
  | some r =>
    rw [hfind] at hres
    dsimp only at hres
    split_ifs at hres with hact
    rw [Except.ok.injEq, Prod.mk.injEq] at hres
    obtain ⟨hts, _⟩ := hres
    subst hts
    intro x hx
    rcases mem_patchToken hx with hmem | ⟨r2, hfind2, hxe⟩
    · exact h x hmem
    · subst hxe
      exact h r2 (findToken_mem hfind2)

theorem deactivate_ok_preserves_invariant (st : TokenStore) (tok : String)
    (now : Nat) (ts : TokenStore) (b : Bool) (s2 : String)
    (hres : deactivateEphemeralToken st tok now = .ok (ts, b, s2))
    (h : tokenInvariant st) : tokenInvariant ts := by
  unfold deactivateEphemeralToken at hres
  cases hfind : findToken st tok with
  | none => rw [hfind] at hres; simp at hres
  | some r =>
    rw [hfind] at hres
    dsimp only at hres
    rw [Except.ok.injEq, Prod.mk.injEq] at hres
    obtain ⟨hts, _⟩ := hres
    subst hts
    intro x hx
    rcases mem_patchToken hx with hmem | ⟨r2, hfind2, hxe⟩
    · exact h x hmem
    · subst hxe
      exact h r2 (findToken_mem hfind2)

theorem createSessionAction_preserves_invariant (st : SystemState)
    (userId : String) (ephToken : Option String) (newSid : String)
    (connOk : Bool) (now : Nat) (h : tokenInvariant st.tokens) :
    tokenInvariant ((createSessionAction st userId ephToken newSid connOk now).1).tokens := by
  unfold createSessionAction
  split_ifs with huid
  · exact h
  · cases ephToken with
    | none =>
      rw [finishCreateSession_tokens]
      exact h
    | some tok =>
      dsimp only
      cases hv : (validateEphemeralToken st.tokens tok now).isValid with
      | false =>
        rw [if_pos (by simp)]
        exact h
      | true =>
        rw [if_neg (by simp)]
        cases hu : updateTokenUsage st.tokens tok (some 1) none now with
        | error e => exact h
        | ok p =>
          obtain ⟨ts, res⟩ := p
          dsimp only
          rw [finishCreateSession_tokens]
          exact updateUsage_guarded_preserves_invariant st.tokens tok now
            (some 1) none (by simp) (by simp) hv h ts res hu

theorem sendMessageAction_preserves_invariant (st : SystemState)
    (sid : Option String) (ephToken : Option String) (sendOk : Bool)
    (now : Nat) (h : tokenInvariant st.tokens) :
    tokenInvariant ((sendMessageAction st sid ephToken sendOk now).1).tokens := by
  unfold sendMessageAction
  cases sid with
  | none => exact h
  | some s =>
    dsimp only
    cases findSession st.sessions s with
    | none => exact h
    | some sess =>
      dsimp only
      split_ifs with hact
      · exact h
      · cases ephToken with
        | none =>
          rw [finishSendMessage_tokens]
          exact h
        | some tok =>
          dsimp only
          cases hv : (validateEphemeralToken st.tokens tok now).isValid with
          | false =>
            rw [if_pos (by simp)]
            exact h
          | true =>
            rw [if_neg (by simp)]
            cases hu : updateTokenUsage st.tokens tok none (some 1) now with
            | error e => exact h
            | ok p =>
              obtain ⟨ts, res⟩ := p
              dsimp only
              rw [finishSendMessage_tokens]
              exact updateUsage_guarded_preserves_invariant st.tokens tok now
                none (some 1) (by simp) (by simp) hv h ts res hu

/-- Every operation other than a direct `updateTokenUsage` call preserves
the counter invariant. -/
theorem sysStep_preserves_tokenInvariant (st : SystemState) (op : SysOp)
    (hop : op.isRawUpdateUsage = false) (h : tokenInvariant st.tokens) :
    tokenInvariant (sysStep st op).tokens := by
  cases op with
  | generate userExists userId maxS maxM expMin secret now =>
    dsimp only [sysStep]
    cases hg : generateEphemeralToken st.tokens userExists userId maxS maxM expMin secret now with
    | error e => exact h
    | ok p =>
      obtain ⟨ts, res⟩ := p
      dsimp only
      unfold generateEphemeralToken at hg
      split_ifs at hg with hu
      rw [Except.ok.injEq, Prod.mk.injEq] at hg
      obtain ⟨hts, _⟩ := hg
      subst hts
      intro x hx
      rcases List.mem_append.mp hx with hx | hx
      · exact h x hx
      · have hxe : x = _ := List.mem_singleton.mp hx
        subst hxe
        exact ⟨Nat.zero_le _, Nat.zero_le _⟩
  | validate tok now => exact h
  | updateUsage tok incS incM now => simp [SysOp.isRawUpdateUsage] at hop
  | refresh tok addMin now =>
    dsimp only [sysStep]
    cases hg : refreshEphemeralToken st.tokens tok addMin now with
    | error e => exact h
    | ok p =>
      obtain ⟨ts, res⟩ := p
      exact refresh_ok_preserves_invariant st.tokens tok addMin now ts res hg h
  | deactivate tok now =>
    dsimp only [sysStep]
    cases hg : deactivateEphemeralToken st.tokens tok now with
    | error e => exact h
    | ok p =>
      obtain ⟨ts, b, s2⟩ := p
      exact deactivate_ok_preserves_invariant st.tokens tok now ts b s2 hg h
  | cleanupTokens now =>
    intro x hx
    exact h x (List.mem_of_mem_filter hx)
  | createSession userId ephToken newSid connOk now =>
    exact createSessionAction_preserves_invariant st userId ephToken newSid connOk now h
  | sendMessage sid ephToken sendOk now =>
    exact sendMessageAction_preserves_invariant st sid ephToken sendOk now h
  | closeSession sid closeOk now => exact h
  | cleanupSessions closeOk now => exact h

/-- C1 counterexample: the invariant `sessionsUsed ≤ maxSessions` is
violated by a purely sequential two-operation run — generate a token with
`maxSessions = 3`, then call `updateTokenUsage` directly with an increment
of 4 — no concurrency involved, because `updateTokenUsage` applies
increments unconditionally. -/
theorem counters_invariant_counterexample :
    ∃ r ∈ (sysRun { tokens := [], sessions := [] }
        [SysOp.generate true "u" (some 3) none none "tok" 0,
         SysOp.updateUsage "tok" (some 4) none 1]).tokens,
      r.maxSessions < r.sessionsUsed := by
  decide

/-- C1 amended: for every starting state whose token table satisfies the
counter bounds, and every sequence of operations in which the usage
counters are only ever incremented through the session proxy
(`create_session` / `send_message`, which validate first and increment by
one) — i.e. a sequence containing no direct `updateTokenUsage` operation —
`sessionsUsed ≤ maxSessions` and `messagesUsed ≤ maxMessages` hold at all
observable times (the statement applies to every prefix of the run). -/
theorem counters_invariant_amended (ops : List SysOp) (st : SystemState)
    (hinv : tokenInvariant st.tokens)
    (hops : ∀ op ∈ ops, op.isRawUpdateUsage = false) :
    tokenInvariant (sysRun st ops).tokens := by
  induction ops generalizing st with
  | nil => exact hinv
  | cons op rest ih =>
    have hstep := sysStep_preserves_tokenInvariant st op
      (hops op (List.mem_cons_self _ _)) hinv
    exact ih (sysStep st op) hstep
      (fun o ho => hops o (List.mem_cons_of_mem _ ho))

/-- Witness for C1 amended: a generate followed by a metered
`create_session` with the issued secret. -/
theorem counters_invariant_amended_witness :
    tokenInvariant
      (sysRun { tokens := [], sessions := [] }
        [SysOp.generate true "u" (some 3) none none "tok" 0,
         SysOp.createSession "u" (some "tok") "s1" true 1]).tokens :=
  counters_invariant_amended
    [SysOp.generate true "u" (some 3) none none "tok" 0,
     SysOp.createSession "u" (some "tok") "s1" true 1]
    { tokens := [], sessions := [] } (by decide) (by decide)

/-! ### C4: the maxSessions = 3 scenario -/

/-- A token record as issued with `maxSessions = 3`, after `used` metered
sessions (messages untouched). -/
def c4TokenRecord (uid tok : String) (exp maxM used lu : Nat) : TokenRecord :=
  { token := tok, userId := uid, expiresAt := exp, sessionsUsed := used,
    messagesUsed := 0, maxSessions := 3, maxMessages := maxM, isActive := true,
    createdAt := 0, lastUsed := lu }

/-- The session entry `create_session` registers. -/
def freshSession (sid uid : String) (now : Nat) : GeminiSession :=
  { sessionId := sid, userId := uid, hasConn := true, isActive := true,
    createdAt := now, lastActivity := now }

theorem c4_findToken (uid tok : String) (exp maxM used lu : Nat) :
    findToken [c4TokenRecord uid tok exp maxM used lu] tok =
      some (c4TokenRecord uid tok exp maxM used lu) := by
  rw [findToken_cons]
  rw [if_pos (by simp [c4TokenRecord])]

theorem c4_create_succeeds (uid tok : String) (exp maxM used lu : Nat)
    (reg : SessionRegistry) (sid : String) (t : Nat)
    (huid : uid ≠ "") (hused : used < 3) (ht : t ≤ exp) (hm : 0 < maxM) :
    createSessionAction ⟨[c4TokenRecord uid tok exp maxM used lu], reg⟩ uid
        (some tok) sid true t =
      (⟨[c4TokenRecord uid tok exp maxM (used + 1) t],
        reg ++ [freshSession sid uid t]⟩,
       .created sid "connected" geminiModelName) := by
  have hfind := c4_findToken uid tok exp maxM used lu
  have hv : (validateEphemeralToken [c4TokenRecord uid tok exp maxM used lu] tok t).isValid = true :=
    (validate_isValid_iff _ tok t).mpr
      ⟨c4TokenRecord uid tok exp maxM used lu, hfind, rfl, ht, hused, hm⟩
  have hupd : updateTokenUsage [c4TokenRecord uid tok exp maxM used lu] tok
      (some 1) none t =
      .ok ([c4TokenRecord uid tok exp maxM (used + 1) t],
           { sessionsUsed := used + 1, messagesUsed := 0,
             maxSessions := 3, maxMessages := maxM }) := by
    unfold updateTokenUsage
    rw [hfind]
    dsimp only
    rw [patchToken, if_pos (by simp [c4TokenRecord])]
    rfl
  show createSessionAction _ uid (some tok) sid true t = _
  unfold createSessionAction
  rw [if_neg huid]
  dsimp only
  rw [hv, if_neg (by simp), hupd]
  dsimp only
  unfold finishCreateSession
  rw [if_pos rfl]
  rfl

theorem c4_create_quota_exceeded (uid tok : String) (exp maxM lu : Nat)
    (reg : SessionRegistry) (sid : String) (t : Nat)
    (huid : uid ≠ "") (ht : t ≤ exp) :
    createSessionAction ⟨[c4TokenRecord uid tok exp maxM 3 lu], reg⟩ uid
        (some tok) sid true t =
      (⟨[c4TokenRecord uid tok exp maxM 3 lu], reg⟩,
       .tokenRejected "Session limit exceeded") := by
  have hfind := c4_findToken uid tok exp maxM 3 lu
  have hval : validateEphemeralToken [c4TokenRecord uid tok exp maxM 3 lu] tok t =
      { isValid := false, error := some "Session limit exceeded" } := by
    unfold validateEphemeralToken
    rw [hfind]
    dsimp only
    rw [if_neg (by simp [c4TokenRecord]), if_neg (by simpa [c4TokenRecord] using Nat.not_lt.mpr ht),
        if_pos (by simp [c4TokenRecord] : (c4TokenRecord uid tok exp maxM 3 lu).maxSessions ≤ (c4TokenRecord uid tok exp maxM 3 lu).sessionsUsed)]
  unfold createSessionAction
  rw [if_neg huid]
  dsimp only
  rw [hval]
  rw [if_pos (by simp)]
  rfl

/-- C4: a token issued with `maxSessions = 3` admits exactly three
successful `create_session` calls — each increments `sessionsUsed` by one
and registers one session — and the fourth call is rejected with the
"Session limit exceeded" reason, leaving both the token table and the
session registry unchanged (no session registered, no usage metered). -/
theorem session_quota_scenario (uid tok : String) (exp maxM lu : Nat)
    (reg0 : SessionRegistry) (s1 s2 s3 s4 : String) (t1 t2 t3 t4 : Nat)
    (huid : uid ≠ "") (hm : 0 < maxM)
    (h1 : t1 ≤ exp) (h2 : t2 ≤ exp) (h3 : t3 ≤ exp) (h4 : t4 ≤ exp) :
    createSessionAction ⟨[c4TokenRecord uid tok exp maxM 0 lu], reg0⟩ uid
        (some tok) s1 true t1 =
      (⟨[c4TokenRecord uid tok exp maxM 1 t1], reg0 ++ [freshSession s1 uid t1]⟩,
       .created s1 "connected" geminiModelName) ∧
    createSessionAction
        ⟨[c4TokenRecord uid tok exp maxM 1 t1], reg0 ++ [freshSession s1 uid t1]⟩
        uid (some tok) s2 true t2 =
      (⟨[c4TokenRecord uid tok exp maxM 2 t2],
        reg0 ++ [freshSession s1 uid t1] ++ [freshSession s2 uid t2]⟩,
       .created s2 "connected" geminiModelName) ∧
    createSessionAction
        ⟨[c4TokenRecord uid tok exp maxM 2 t2],
         reg0 ++ [freshSession s1 uid t1] ++ [freshSession s2 uid t2]⟩
        uid (some tok) s3 true t3 =
      (⟨[c4TokenRecord uid tok exp maxM 3 t3],
        reg0 ++ [freshSession s1 uid t1] ++ [freshSession s2 uid t2] ++
          [freshSession s3 uid t3]⟩,
       .created s3 "connected" geminiModelName) ∧
    createSessionAction
        ⟨[c4TokenRecord uid tok exp maxM 3 t3],
         reg0 ++ [freshSession s1 uid t1] ++ [freshSession s2 uid t2] ++
           [freshSession s3 uid t3]⟩
        uid (some tok) s4 true t4 =
      (⟨[c4TokenRecord uid tok exp maxM 3 t3],
        reg0 ++ [freshSession s1 uid t1] ++ [freshSession s2 uid t2] ++
          [freshSession s3 uid t3]⟩,
       .tokenRejected "Session limit exceeded") :=
  ⟨c4_create_succeeds uid tok exp maxM 0 lu reg0 s1 t1 huid (by omega) h1 hm,
   c4_create_succeeds uid tok exp maxM 1 t1 _ s2 t2 huid (by omega) h2 hm,
   c4_create_succeeds uid tok exp maxM 2 t2 _ s3 t3 huid (by omega) h3 hm,
   c4_create_quota_exceeded uid tok exp maxM t3 _ s4 t4 huid h4⟩

/-- Witness for C4 at fully concrete inputs. -/
theorem session_quota_scenario_witness :
    createSessionAction ⟨[c4TokenRecord "u" "t" 1000 5 0 0], []⟩ "u"
        (some "t") "s1" true 1 =
      (⟨[c4TokenRecord "u" "t" 1000 5 1 1], [] ++ [freshSession "s1" "u" 1]⟩,
       .created "s1" "connected" geminiModelName) ∧
    createSessionAction ⟨[c4TokenRecord "u" "t" 1000 5 1 1], [] ++ [freshSession "s1" "u" 1]⟩
        "u" (some "t") "s2" true 2 =
      (⟨[c4TokenRecord "u" "t" 1000 5 2 2],
        [] ++ [freshSession "s1" "u" 1] ++ [freshSession "s2" "u" 2]⟩,
       .created "s2" "connected" geminiModelName) ∧
    createSessionAction
        ⟨[c4TokenRecord "u" "t" 1000 5 2 2],
         [] ++ [freshSession "s1" "u" 1] ++ [freshSession "s2" "u" 2]⟩
        "u" (some "t") "s3" true 3 =
      (⟨[c4TokenRecord "u" "t" 1000 5 3 3],
        [] ++ [freshSession "s1" "u" 1] ++ [freshSession "s2" "u" 2] ++
          [freshSession "s3" "u" 3]⟩,
       .created "s3" "connected" geminiModelName) ∧
    createSessionAction
        ⟨[c4TokenRecord "u" "t" 1000 5 3 3],
         [] ++ [freshSession "s1" "u" 1] ++ [freshSession "s2" "u" 2] ++
           [freshSession "s3" "u" 3]⟩
        "u" (some "t") "s4" true 4 =
      (⟨[c4TokenRecord "u" "t" 1000 5 3 3],
        [] ++ [freshSession "s1" "u" 1] ++ [freshSession "s2" "u" 2] ++
          [freshSession "s3" "u" 3]⟩,
       .tokenRejected "Session limit exceeded") :=
  session_quota_scenario "u" "t" 1000 5 0 [] "s1" "s2" "s3" "s4" 1 2 3 4
    (by decide) (by decide) (by decide) (by decide) (by decide) (by decide)

/-! ### C8: the inactivity sweep -/

theorem sweepEntry_eq (closeOk : String → Bool) (now : Nat)
    (acc : SessionRegistry × List String) (s : GeminiSession) :
    sweepEntry closeOk now acc s =
      if TIMEOUT_MS < now - s.lastActivity then
        (deleteSession acc.1 s.sessionId,
         if s.hasConn && s.isActive then acc.2 ++ [s.sessionId] else acc.2)
      else acc := by
  unfold sweepEntry
  by_cases h1 : TIMEOUT_MS < now - s.lastActivity
  · rw [if_pos h1, if_pos h1]
    dsimp only
    split
    · rfl
    · rfl
  · rw [if_neg h1, if_neg h1]

theorem sweep_foldl_fst (closeOk : String → Bool) (now : Nat)
    (xs : List GeminiSession) :
    ∀ (acc : SessionRegistry) (atts : List String),
      (xs.foldl (sweepEntry closeOk now) (acc, atts)).1 =
        acc.filter (fun x => xs.all (fun s =>
          !(decide (TIMEOUT_MS < now - s.lastActivity)) ||
            x.sessionId != s.sessionId)) := by
  induction xs with
  | nil =>
    intro acc atts
    simp
  | cons s xs ih =>
    intro acc atts
    rw [List.foldl_cons, sweepEntry_eq]
    by_cases h1 : TIMEOUT_MS < now - s.lastActivity
    · rw [if_pos h1]
      rw [ih]
      unfold deleteSession
      rw [List.filter_filter]
      apply List.filter_congr
      intro x hx
      simp [h1, Bool.and_comm]
    · rw [if_neg h1, ih]
      apply List.filter_congr
      intro x hx
      simp [h1]

theorem sweep_foldl_snd (closeOk : String → Bool) (now : Nat)
    (xs : List GeminiSession) :
    ∀ (acc : SessionRegistry) (atts : List String),
      (xs.foldl (sweepEntry closeOk now) (acc, atts)).2 =
        atts ++ (xs.filter (fun s =>
          decide (TIMEOUT_MS < now - s.lastActivity) &&
            (s.hasConn && s.isActive))).map (fun s => s.sessionId) := by
  induction xs with
  | nil =>
    intro acc atts
    simp
  | cons s xs ih =>
    intro acc atts
    rw [List.foldl_cons, sweepEntry_eq]
    by_cases h1 : TIMEOUT_MS < now - s.lastActivity
    · rw [if_pos h1]
      by_cases h2 : (s.hasConn && s.isActive) = true
      · rw [if_pos h2, ih, List.filter_cons]
        simp [h1, h2]
      · rw [if_neg h2, ih, List.filter_cons]
        have h2f : (s.hasConn && s.isActive) = false := by simpa using h2
        simp [h1, h2f]
    · rw [if_neg h1, ih, List.filter_cons]
      simp [h1]

theorem pairwise_sid_unique {reg : SessionRegistry}
    (hp : reg.Pairwise (fun a b => a.sessionId ≠ b.sessionId))
    {x y : GeminiSession} (hx : x ∈ reg) (hy : y ∈ reg)
    (hxy : x.sessionId = y.sessionId) : x = y := by
  by_contra hne
  exact List.Pairwise.forall (fun a b hab => fun he => hab he.symm) hp hx hy hne hxy

/-- C8: the inactivity sweep removes from the registry exactly the sessions
whose `lastActivity` is more than the fixed 15-minute timeout in the past
(first conjunct), and — whatever the close outcomes `closeOk` are — a
failing close neither prevents that session's removal nor the close
attempts on the remaining timed-out sessions: the surviving registry does
not depend on `closeOk` at all, and a close is attempted on every timed-out
connected active session (second conjunct). -/
theorem cleanup_removes_exactly_stale (closeOk : String → Bool) (now : Nat)
    (reg : SessionRegistry)
    (hp : reg.Pairwise (fun a b => a.sessionId ≠ b.sessionId)) :
    (cleanupInactiveSessions closeOk now reg).1 =
      reg.filter (fun s => !(decide (TIMEOUT_MS < now - s.lastActivity))) ∧
    (cleanupInactiveSessions closeOk now reg).2 =
      (reg.filter (fun s =>
        decide (TIMEOUT_MS < now - s.lastActivity) &&
          (s.hasConn && s.isActive))).map (fun s => s.sessionId) := by
  constructor
  · unfold cleanupInactiveSessions
    rw [sweep_foldl_fst]
    apply List.filter_congr
    intro x hx
    by_cases hT : TIMEOUT_MS < now - x.lastActivity
    · have hfalse : reg.all (fun s =>
          !(decide (TIMEOUT_MS < now - s.lastActivity)) ||
            x.sessionId != s.sessionId) = false := by
        cases hall : reg.all (fun s =>
            !(decide (TIMEOUT_MS < now - s.lastActivity)) ||
              x.sessionId != s.sessionId) with
        | false => rfl
        | true =>
          have hone := List.all_eq_true.mp hall x hx
          rw [decide_eq_true hT] at hone
          simp at hone
      rw [hfalse, decide_eq_true hT]
      rfl
    · have htrue : reg.all (fun s =>
          !(decide (TIMEOUT_MS < now - s.lastActivity)) ||
            x.sessionId != s.sessionId) = true := by
        rw [List.all_eq_true]
        intro s hs
        by_cases hs1 : TIMEOUT_MS < now - s.lastActivity
        · have hne : x.sessionId ≠ s.sessionId := by
            intro he
            have hxs : x = s := pairwise_sid_unique hp hx hs he
            rw [hxs] at hT
            exact hT hs1
          simp [hne]
        · simp [hs1]
      rw [htrue, decide_eq_false hT]
      rfl
  · unfold cleanupInactiveSessions
    rw [sweep_foldl_snd]
    rfl

/-- Witness for C8: one stale session, one fresh session, with every close
attempt failing; the stale one is removed and was attempted, the fresh one
survives. -/
theorem cleanup_removes_exactly_stale_witness :
    (cleanupInactiveSessions (fun _ => false) 2000000
        [freshSession "a" "u" 0, freshSession "b" "u" 1999999]).1 =
      [freshSession "a" "u" 0, freshSession "b" "u" 1999999].filter
        (fun s => !(decide (TIMEOUT_MS < 2000000 - s.lastActivity))) ∧
    (cleanupInactiveSessions (fun _ => false) 2000000
        [freshSession "a" "u" 0, freshSession "b" "u" 1999999]).2 =
      ([freshSession "a" "u" 0, freshSession "b" "u" 1999999].filter
        (fun s => decide (TIMEOUT_MS < 2000000 - s.lastActivity) &&
          (s.hasConn && s.isActive))).map (fun s => s.sessionId) :=
  cleanup_removes_exactly_stale (fun _ => false) 2000000
    [freshSession "a" "u" 0, freshSession "b" "u" 1999999] (by decide)

/-! ### C9: corrupted or expired client cache -/

/-- C9: if the persisted record is corrupted (its JSON parse throws) or its
`expiresAt` is in the past, `getTokenInfo` clears the cached record and
returns absent, and `isTokenValid` returns false; both are total functions
here because the source catches the parse error (the `catch` is the
clear-and-return-null path), so neither raises. -/
theorem corrupted_or_expired_cache_cleared (c : ClientCache) (now : Nat)
    (raw : RawTokenInfo) (hc : c.tokenInfoKey = some raw)
    (hbad : raw.parsed = none ∨
      ∃ info, raw.parsed = some info ∧ info.expiresAt < now) :
    getTokenInfo c now = (clearToken c, none) ∧
    isTokenValid c now = (clearToken c, false) := by
  have hg : getTokenInfo c now = (clearToken c, none) := by
    unfold getTokenInfo
    rw [hc]
    dsimp only
    rcases hbad with hb | ⟨info, hb, hexp⟩
    · rw [hb]
    · rw [hb]
      dsimp only
      rw [if_pos hexp]
  refine ⟨hg, ?_⟩
  unfold isTokenValid
  rw [hg]

/-- A concrete cache slot whose persisted JSON is unreadable. -/
def corruptCache : ClientCache :=
  { tokenKey := some "glt_x", tokenInfoKey := some { parsed := none } }

/-- Witness for C9: the corrupted concrete cache at time 5. -/
theorem corrupted_or_expired_cache_cleared_witness :
    getTokenInfo corruptCache 5 = (clearToken corruptCache, none) ∧
    isTokenValid corruptCache 5 = (clearToken corruptCache, false) :=
  corrupted_or_expired_cache_cleared corruptCache 5 { parsed := none } rfl
    (Or.inl rfl)

/-! ### C10: close_session idempotence -/

theorem deleteSession_absent (reg : SessionRegistry) (sid : String)
    (h : findSession reg sid = none) : deleteSession reg sid = reg := by
  apply List.filter_eq_self.mpr
  intro x hx
  have hnp := List.find?_eq_none.mp h x hx
  simpa using hnp

theorem findSession_deleteSession (reg : SessionRegistry) (sid : String) :
    findSession (deleteSession reg sid) sid = none := by
  apply List.find?_eq_none.mpr
  intro x hx
  have hmem := List.mem_filter.mp hx
  simpa using hmem.2

theorem deleteSession_updateSession (reg : SessionRegistry) (sid : String)
    (f : GeminiSession → GeminiSession)
    (hf : ∀ s, (f s).sessionId = s.sessionId) :
    deleteSession (updateSession reg sid f) sid = deleteSession reg sid := by
  induction reg with
  | nil => rfl
  | cons s rest ih =>
    unfold updateSession deleteSession at ih ⊢
    rw [List.map_cons, List.filter_cons, List.filter_cons]
    by_cases h : (s.sessionId == sid) = true
    · have hs : s.sessionId = sid := by simpa using h
      rw [if_pos h]
      have h1 : ((f s).sessionId != sid) = false := by simp [hf s, hs]
      have h2 : (s.sessionId != sid) = false := by simp [hs]
      rw [h1, h2]
      simpa using ih
    · rw [if_neg h]
      have h2 : (s.sessionId != sid) = true := by simpa using h
      rw [h2]
      simp only [cond_true]
      rw [show List.filter (fun x => x.sessionId != sid)
            (List.map (fun x => if x.sessionId == sid then f x else x) rest) =
          List.filter (fun x => x.sessionId != sid) rest from by simpa using ih]

/-- C10: `close_session` is idempotent and total over session ids — for
every registry, every sessionId (present, already closed, or never
registered) and either close outcome, the action reports
`"session_closed"`, the resulting registry is exactly the original with
that id removed, an absent id leaves the registry unchanged, and after the
call the id is no longer present. -/
theorem close_session_idempotent (reg : SessionRegistry) (sid : String)
    (closeOk : Bool) :
    (closeSessionAction reg sid closeOk).status = "session_closed" ∧
    (closeSessionAction reg sid closeOk).registry = deleteSession reg sid ∧
    (findSession reg sid = none →
      (closeSessionAction reg sid closeOk).registry = reg) ∧
    findSession (closeSessionAction reg sid closeOk).registry sid = none := by
  cases hfind : findSession reg sid with
  | none =>
    unfold closeSessionAction
    rw [hfind]
    refine ⟨rfl, (deleteSession_absent reg sid hfind).symm, fun _ => rfl, ?_⟩
    exact hfind
  | some s =>
    unfold closeSessionAction
    rw [hfind]
    dsimp only
    have hreg : deleteSession
        (if closeOk then updateSession reg sid (fun t => { t with isActive := false })
         else reg) sid = deleteSession reg sid := by
      cases closeOk with
      | true =>
        rw [if_pos rfl]
        exact deleteSession_updateSession reg sid
          (fun t => { t with isActive := false }) (fun t => rfl)
      | false => rw [if_neg (by simp)]
    refine ⟨rfl, hreg, ?_, ?_⟩
    · intro habs
      exact Option.noConfusion habs
    · rw [hreg]
      exact findSession_deleteSession reg sid

/-- Witness for C10: closing an absent session id on a one-entry registry
with a failing close. -/
theorem close_session_idempotent_witness :
    (closeSessionAction [freshSession "a" "u" 0] "zzz" false).status = "session_closed" ∧
    (closeSessionAction [freshSession "a" "u" 0] "zzz" false).registry =
      deleteSession [freshSession "a" "u" 0] "zzz" ∧
    (findSession [freshSession "a" "u" 0] "zzz" = none →
      (closeSessionAction [freshSession "a" "u" 0] "zzz" false).registry =
        [freshSession "a" "u" 0]) ∧
    findSession (closeSessionAction [freshSession "a" "u" 0] "zzz" false).registry "zzz" = none :=
  close_session_idempotent [freshSession "a" "u" 0] "zzz" false

end ReactStarterKit
